import Mathlib

/-!
Shallow embedding of the `market` Gear contract (`src/src/lib.rs` and
`src/io/src/lib.rs`).  The `HashMap`s of the source become association
lists; `u128` values become `Nat` with wrapping made explicit (`% 2 ^ 128`)
at the single multiplication the source performs; value transfers issued by
`send_value` are collected in a list.  The host-supplied existential
deposit is a parameter read at call time, and the caller identity and
attached value are explicit arguments, matching the dispatcher contract.
-/

namespace MarketSpec

/-- Width of the `u128` machine integers of the source. -/
def U : Nat := 2 ^ 128

/-- Actor identities (`ActorId` in the source), abstracted as naturals. -/
abbrev ActorId := Nat

/-- `Config` from `io/src/lib.rs`: holds one public key string. -/
structure Config where
  public_key : String
deriving Repr, DecidableEq

/-- `ProductData` from `io/src/lib.rs`. -/
structure ProductData where
  quantity : Nat
  price : Nat
deriving Repr, DecidableEq

/-- `Status` from `io/src/lib.rs` (only `PaidFor` exists). -/
inductive Status where
  | PaidFor
deriving Repr, DecidableEq

/-- `PurchaseData` from `io/src/lib.rs`. -/
structure PurchaseData where
  name : String
  quantity : Nat
  status : Status
  delivery_address : String
deriving Repr, DecidableEq

/-- `MarketError` from `io/src/lib.rs`: the seven declared error kinds. -/
inductive MarketError where
  | NotAdmin
  | AlreadyExists
  | ThereIsNoSuchName
  | ZeroQuantity
  | PriceLessThanExistentialDeposit
  | InsufficientValue
  | QuantityExceeded
deriving Repr, DecidableEq

/-- `MarketEvent` from `io/src/lib.rs`: the success replies. -/
inductive MarketEvent where
  | ProductAdded (name : String) (quantity : Nat) (price : Nat)
  | ProductInfoUpdated (name : String) (quantity : Option Nat) (price : Option Nat)
  | ConfigUpdated (config : Config)
  | ProductDeleted (name : String)
  | Bought (buyer : ActorId) (name : String) (quantity : Nat)
deriving Repr, DecidableEq

/-- The `Market` aggregate of `src/src/lib.rs`, its two `HashMap`s embedded
as association lists. -/
structure Market where
  products : List (String × ProductData)
  purchases : List (ActorId × List PurchaseData)
  admin : ActorId
  config : Config
deriving Repr, DecidableEq

/-- Association-list lookup: `HashMap::get` / `contains_key`. -/
def alGet {α β : Type} [DecidableEq α] : List (α × β) → α → Option β
  | [], _ => none
  | (k, v) :: rest, key => if k = key then some v else alGet rest key

/-- Association-list in-place overwrite of the value at a key, embedding a
mutation through `HashMap::get_mut`.  Keys absent from the list are left
alone. -/
def alSet {α β : Type} [DecidableEq α] : List (α × β) → α → β → List (α × β)
  | [], _, _ => []
  | (k, v) :: rest, key, newV =>
      if k = key then (k, newV) :: rest else (k, v) :: alSet rest key newV

/-- Association-list removal: `HashMap::remove` (the first binding of the
key). -/
def alRemove {α β : Type} [DecidableEq α] : List (α × β) → α → List (α × β)
  | [], _ => []
  | (k, v) :: rest, key =>
      if k = key then rest else (k, v) :: alRemove rest key

/-- `HashMap::entry(k).and_modify(f).or_insert(d)`: modify the value at `k`
when present, otherwise add the binding `(k, d)`. -/
def alEntryOrInsert {α β : Type} [DecidableEq α] :
    List (α × β) → α → (β → β) → β → List (α × β)
  | [], key, _, d => [(key, d)]
  | (k, v) :: rest, key, f, d =>
      if k = key then (k, f v) :: rest
      else (k, v) :: alEntryOrInsert rest key f d

/-- `send_value` from `src/src/lib.rs`: issues one value transfer unless the
amount is zero.  The returned list holds the transfers issued. -/
def send_value (destination : ActorId) (value : Nat) : List (ActorId × Nat) :=
  if value ≠ 0 then [(destination, value)] else []

/-- `Market::add_product`.  `msg_source` is `msg::source()`, `ed` is
`exec::env_vars().existential_deposit`, read from the host at call time. -/
def add_product (m : Market) (msg_source : ActorId) (ed : Nat)
    (name : String) (quantity price : Nat) :
    Market × Except MarketError MarketEvent :=
  if msg_source ≠ m.admin then (m, .error .NotAdmin)
  else if (alGet m.products name).isSome then (m, .error .AlreadyExists)
  else if price < ed then (m, .error .PriceLessThanExistentialDeposit)
  else
    ({ m with products := m.products ++ [(name, ⟨quantity, price⟩)] },
     .ok (.ProductAdded name quantity price))

/-- `Market::update_product_info`. -/
def update_product_info (m : Market) (msg_source : ActorId)
    (name : String) (quantity price : Option Nat) :
    Market × Except MarketError MarketEvent :=
  if msg_source ≠ m.admin then (m, .error .NotAdmin)
  else
    match alGet m.products name with
    | none => (m, .error .ThereIsNoSuchName)
    | some pd =>
        let pd1 := match quantity with
          | some q => { pd with quantity := q }
          | none => pd
        let pd2 := match price with
          | some p => { pd1 with price := p }
          | none => pd1
        ({ m with products := alSet m.products name pd2 },
         .ok (.ProductInfoUpdated name quantity price))

/-- `Market::update_config`. -/
def update_config (m : Market) (msg_source : ActorId) (config : Config) :
    Market × Except MarketError MarketEvent :=
  if msg_source ≠ m.admin then (m, .error .NotAdmin)
  else ({ m with config := config }, .ok (.ConfigUpdated config))

/-- `Market::delete_product`. -/
def delete_product (m : Market) (msg_source : ActorId) (name : String) :
    Market × Except MarketError MarketEvent :=
  if msg_source ≠ m.admin then (m, .error .NotAdmin)
  else
    match alGet m.products name with
    | none => (m, .error .ThereIsNoSuchName)
    | some _ =>
        ({ m with products := alRemove m.products name },
         .ok (.ProductDeleted name))

instance {ε α : Type} [DecidableEq ε] [DecidableEq α] : DecidableEq (Except ε α) :=
  fun a b =>
    match a, b with
    | .error e1, .error e2 =>
        if h : e1 = e2 then .isTrue (by rw [h]) else .isFalse (by simp [h])
    | .error _, .ok _ => .isFalse (by simp)
    | .ok _, .error _ => .isFalse (by simp)
    | .ok v1, .ok v2 =>
        if h : v1 = v2 then .isTrue (by rw [h]) else .isFalse (by simp [h])

/-- Result of one `Market::buy` call: the state after the call, the value
transfers issued during it, and the reply. -/
structure BuyResult where
  market : Market
  transfers : List (ActorId × Nat)
  result : Except MarketError MarketEvent
deriving Repr, DecidableEq

/-- `Market::buy`.  `total_payment` is the source's `u128` product, which
wraps at `2 ^ 128`. -/
def buy (m : Market) (msg_source : ActorId) (msg_value : Nat)
    (name : String) (quantity : Nat) (delivery_address : String) : BuyResult :=
  match alGet m.products name with
  | none => ⟨m, [], .error .ThereIsNoSuchName⟩
  | some product_data =>
      if quantity = 0 then ⟨m, [], .error .ZeroQuantity⟩
      else if quantity > product_data.quantity then ⟨m, [], .error .QuantityExceeded⟩
      else
        let total_payment := product_data.price * quantity % U
        if msg_value < total_payment then ⟨m, [], .error .InsufficientValue⟩
        else
          let transfers :=
            if msg_value > total_payment then
              send_value msg_source (msg_value - total_payment)
            else []
          let new_purchase : PurchaseData :=
            ⟨name, quantity, .PaidFor, delivery_address⟩
          ⟨{ m with
              products := alSet m.products name
                { product_data with quantity := product_data.quantity - quantity },
              purchases := alEntryOrInsert m.purchases msg_source
                (fun purchase => purchase ++ [new_purchase]) [new_purchase] },
           transfers,
           .ok (.Bought msg_source name quantity)⟩

/-- `StateQuery` from `io/src/lib.rs`. -/
inductive StateQuery where
  | All
  | GetProducts
  | GetPurchases
  | GetActorPurchases (actor : ActorId)
deriving Repr, DecidableEq

/-- `State` from `io/src/lib.rs`: the full snapshot. -/
structure State where
  products : List (String × ProductData)
  purchases : List (ActorId × List PurchaseData)
  admin : ActorId
  config : Config
deriving Repr, DecidableEq

/-- `StateReply` from `io/src/lib.rs`. -/
inductive StateReply where
  | All (s : State)
  | Products (ps : List (String × ProductData))
  | Purchases (ps : List (ActorId × List PurchaseData))
  | ActorPurchases (o : Option (List PurchaseData))
deriving Repr, DecidableEq

/-- The `state` entry point of `src/src/lib.rs` as the reply it builds for
one query.  (In the Gear runtime a state query executes on a discarded
memory snapshot, so the `MARKET.take()` of the source has no observable
effect on later calls; the query is a pure projection of the market.) -/
def stateQuery (m : Market) (q : StateQuery) : StateReply :=
  match q with
  | .All => .All ⟨m.products, m.purchases, m.admin, m.config⟩
  | .GetProducts => .Products m.products
  | .GetPurchases => .Purchases m.purchases
  | .GetActorPurchases actor => .ActorPurchases (alGet m.purchases actor)

/-- One buyer's history as seen in the purchases map (empty when absent). -/
def historyOf (m : Market) (actor : ActorId) : List PurchaseData :=
  (alGet m.purchases actor).getD []

/-- One dispatched `Buy` request: caller identity, attached value, and the
action's arguments. -/
structure BuyCall where
  src : ActorId
  value : Nat
  name : String
  quantity : Nat
  addr : String
deriving Repr, DecidableEq

/-- The market left by one `Buy` call (on failure `buy` leaves it as it
was). -/
def buyStep (m : Market) (c : BuyCall) : Market :=
  (buy m c.src c.value c.name c.quantity c.addr).market

/-- The market after a sequence of `Buy` calls. -/
def buyMany (m : Market) : List BuyCall → Market
  | [] => m
  | c :: cs => buyMany (buyStep m c) cs

/-- The purchase record `buy` appends for a call. -/
def purchaseRecord (c : BuyCall) : PurchaseData :=
  ⟨c.name, c.quantity, .PaidFor, c.addr⟩

/-- Whether a reply is a success event. -/
def isOkR : Except MarketError MarketEvent → Bool
  | .ok _ => true
  | .error _ => false

/-- Every call in the list succeeds when the calls run in sequence. -/
def allSucceed (m : Market) : List BuyCall → Bool
  | [] => true
  | c :: cs =>
      isOkR (buy m c.src c.value c.name c.quantity c.addr).result &&
        allSucceed (buyStep m c) cs

/-- A sample market: admin `1`, one listed product, no purchases yet. -/
def sampleMarket : Market :=
  ⟨[("Widget", ⟨100, 1000⟩)], [], 1, ⟨"pk"⟩⟩

/-- A market whose listed price makes `price * quantity` exceed `u128`
already at quantity 2. -/
def overflowMarket : Market :=
  ⟨[("Gem", ⟨2, 2 ^ 127⟩)], [], 1, ⟨"pk"⟩⟩

/-- A second market with a `u128`-overflowing price, ten units in stock. -/
def overflowMarket2 : Market :=
  ⟨[("Coin", ⟨10, 2 ^ 127⟩)], [], 1, ⟨"pk"⟩⟩

/-- First call of the two-purchase scenario: buyer 7 buys one unit at the
exact price. -/
def c8Call1 : BuyCall := ⟨7, 1000, "Widget", 1, "addr one"⟩

/-- Second call of the two-purchase scenario: buyer 7 buys two units with
overpayment. -/
def c8Call2 : BuyCall := ⟨7, 3000, "Widget", 2, "addr two"⟩

/-! ### Association-list lemmas -/

theorem alGet_alSet_self {α β : Type} [DecidableEq α] (ps : List (α × β))
    (key : α) (v : β) (h : (alGet ps key).isSome) :
    alGet (alSet ps key v) key = some v := by
  induction ps with
  | nil => simp [alGet] at h
  | cons hd tl ih =>
      obtain ⟨k, w⟩ := hd
      by_cases hk : k = key
      · subst hk; simp [alGet, alSet]
      · simp only [alGet, alSet, if_neg hk] at h ⊢
        exact ih h

theorem alGet_alSet_ne {α β : Type} [DecidableEq α] (ps : List (α × β))
    (key k2 : α) (v : β) (h : k2 ≠ key) :
    alGet (alSet ps key v) k2 = alGet ps k2 := by
  induction ps with
  | nil => simp [alSet]
  | cons hd tl ih =>
      obtain ⟨k, w⟩ := hd
      by_cases hk : k = key
      · subst hk
        simp [alSet, alGet, Ne.symm h]
      · simp only [alSet, if_neg hk, alGet]
        by_cases hk2 : k = k2
        · simp [hk2]
        · simp only [if_neg hk2]
          exact ih

theorem alGet_alEntryOrInsert_self {α β : Type} [DecidableEq α]
    (xs : List (α × β)) (key : α) (f : β → β) (d : β) :
    alGet (alEntryOrInsert xs key f d) key =
      some (match alGet xs key with | some v => f v | none => d) := by
  induction xs with
  | nil => simp [alGet, alEntryOrInsert]
  | cons hd tl ih =>
      obtain ⟨k, w⟩ := hd
      by_cases hk : k = key
      · subst hk; simp [alGet, alEntryOrInsert]
      · simp only [alGet, alEntryOrInsert, if_neg hk]
        exact ih

theorem alGet_alEntryOrInsert_ne {α β : Type} [DecidableEq α]
    (xs : List (α × β)) (key k2 : α) (f : β → β) (d : β) (h : k2 ≠ key) :
    alGet (alEntryOrInsert xs key f d) k2 = alGet xs k2 := by
  induction xs with
  | nil => simp [alGet, alEntryOrInsert, Ne.symm h]
  | cons hd tl ih =>
      obtain ⟨k, w⟩ := hd
      by_cases hk : k = key
      · subst hk
        simp [alEntryOrInsert, alGet, Ne.symm h]
      · simp only [alEntryOrInsert, if_neg hk, alGet]
        by_cases hk2 : k = k2
        · simp [hk2]
        · simp only [if_neg hk2]
          exact ih

theorem alGet_append_right {α β : Type} [DecidableEq α] (xs : List (α × β))
    (key : α) (v : β) (h : alGet xs key = none) :
    alGet (xs ++ [(key, v)]) key = some v := by
  induction xs with
  | nil => simp [alGet]
  | cons hd tl ih =>
      obtain ⟨k, w⟩ := hd
      by_cases hk : k = key
      · simp [alGet, hk] at h
      · simp only [alGet, if_neg hk] at h
        simp only [List.cons_append, alGet, if_neg hk]
        exact ih h

/-! ### Claim theorems -/

/-- C5: for every caller different from the admin, each of `add_product`,
`update_product_info`, `update_config` and `delete_product` fails with
`NotAdmin` and returns the market — catalog, purchase history and config —
exactly as it was before the call. -/
theorem C5_not_admin (m : Market) (src : ActorId) (h : src ≠ m.admin)
    (ed quantity price : Nat) (name : String) (oq op : Option Nat)
    (cfg : Config) :
    add_product m src ed name quantity price = (m, .error .NotAdmin) ∧
    update_product_info m src name oq op = (m, .error .NotAdmin) ∧
    update_config m src cfg = (m, .error .NotAdmin) ∧
    delete_product m src name = (m, .error .NotAdmin) := by
  refine ⟨?_, ?_, ?_, ?_⟩ <;>
    simp [add_product, update_product_info, update_config, delete_product, h]

/-- Witness for C5 at a concrete non-admin caller. -/
theorem C5_not_admin_witness :
    add_product sampleMarket 2 500 "Gadget" 5 1000 =
      (sampleMarket, .error .NotAdmin) ∧
    update_product_info sampleMarket 2 "Widget" none (some 0) =
      (sampleMarket, .error .NotAdmin) ∧
    update_config sampleMarket 2 ⟨"pk2"⟩ = (sampleMarket, .error .NotAdmin) ∧
    delete_product sampleMarket 2 "Widget" = (sampleMarket, .error .NotAdmin) :=
  C5_not_admin sampleMarket 2 (by decide) 500 5 1000 "Gadget" none (some 0)
    ⟨"pk2"⟩

/-- C9: every state query is a pure projection of the market's fields —
the full snapshot echoes products, purchases, admin and config; the catalog
and purchase queries echo the corresponding field; a buyer query returns
the stored history, and `none` (not an error) for an identity with no
purchases.  As a Lean function of the market, `stateQuery` cannot mutate
it, so queries may be served repeatedly. -/
theorem C9_state_projection (m : Market) (actor : ActorId) :
    stateQuery m .All = .All ⟨m.products, m.purchases, m.admin, m.config⟩ ∧
    stateQuery m .GetProducts = .Products m.products ∧
    stateQuery m .GetPurchases = .Purchases m.purchases ∧
    stateQuery m (.GetActorPurchases actor) =
      .ActorPurchases (alGet m.purchases actor) ∧
    (alGet m.purchases actor = none →
      stateQuery m (.GetActorPurchases actor) = .ActorPurchases none) := by
  refine ⟨rfl, rfl, rfl, rfl, fun h => ?_⟩
  simp [stateQuery, h]

/-- Witness for C9: a buyer with no purchases gets `none`, not an error. -/
theorem C9_state_projection_witness :
    stateQuery sampleMarket .GetProducts = .Products sampleMarket.products ∧
    stateQuery sampleMarket (.GetActorPurchases 42) = .ActorPurchases none :=
  ⟨(C9_state_projection sampleMarket 42).2.1,
   (C9_state_projection sampleMarket 42).2.2.2.2 (by decide)⟩

/-- C10: `update_product_info` enforces no price floor: for an existing
product, an admin call with `price := some p` succeeds for every `p` —
including `p = 0` and any `p` below whatever existential deposit the host
would report — and sets the product's price to `p`. -/
theorem C10_update_price_unchecked (m : Market) (src : ActorId)
    (name : String) (pd : ProductData) (p : Nat)
    (hadm : src = m.admin) (hlook : alGet m.products name = some pd) :
    (update_product_info m src name none (some p)).2 =
      .ok (.ProductInfoUpdated name none (some p)) ∧
    alGet (update_product_info m src name none (some p)).1.products name =
      some ⟨pd.quantity, p⟩ := by
  subst hadm
  constructor
  · simp [update_product_info, hlook]
  · simp only [update_product_info, ne_eq, not_true_eq_false, if_false,
      hlook]
    exact alGet_alSet_self m.products name _ (by rw [hlook]; rfl)

/-- Witness for C10: the admin sets the price of a listed product to 0,
below any positive deposit threshold. -/
theorem C10_update_price_unchecked_witness :
    (update_product_info sampleMarket 1 "Widget" none (some 0)).2 =
      .ok (.ProductInfoUpdated "Widget" none (some 0)) ∧
    alGet (update_product_info sampleMarket 1 "Widget" none
      (some 0)).1.products "Widget" = some ⟨100, 0⟩ :=
  C10_update_price_unchecked sampleMarket 1 "Widget" ⟨100, 1000⟩ 0
    (by decide) (by decide)

/-- C6: an admin `add_product` fails `AlreadyExists`, with the market (and
so the existing entry) unaltered, when the name is already listed; fails
`PriceLessThanExistentialDeposit`, with no insertion, when the price is
below the deposit threshold read from the host at call time; otherwise
inserts `⟨quantity, price⟩` under the name and returns `ProductAdded`
echoing the three inputs. -/
theorem C6_add_product (m : Market) (src : ActorId) (ed : Nat)
    (name : String) (quantity price : Nat) (hadm : src = m.admin) :
    ((alGet m.products name).isSome →
      add_product m src ed name quantity price = (m, .error .AlreadyExists)) ∧
    (alGet m.products name = none → price < ed →
      add_product m src ed name quantity price =
        (m, .error .PriceLessThanExistentialDeposit)) ∧
    (alGet m.products name = none → ed ≤ price →
      add_product m src ed name quantity price =
        ({ m with products := m.products ++ [(name, ⟨quantity, price⟩)] },
         .ok (.ProductAdded name quantity price)) ∧
      alGet (add_product m src ed name quantity price).1.products name =
        some ⟨quantity, price⟩) := by
  subst hadm
  refine ⟨fun hs => ?_, fun hn hp => ?_, fun hn hp => ⟨?_, ?_⟩⟩
  · simp [add_product, hs]
  · simp [add_product, hn, hp]
  · simp [add_product, hn, Nat.not_lt.mpr hp]
  · simp only [add_product, ne_eq, not_true_eq_false, if_false, hn,
      Option.isSome_none, Bool.false_eq_true, Nat.not_lt.mpr hp]
    exact alGet_append_right m.products name _ hn

/-- Witness for C6 at concrete inputs: duplicate name, too-low price, and a
successful insertion. -/
theorem C6_add_product_witness :
    add_product sampleMarket 1 500 "Widget" 5 2000 =
      (sampleMarket, .error .AlreadyExists) ∧
    add_product sampleMarket 1 500 "Gadget" 5 499 =
      (sampleMarket, .error .PriceLessThanExistentialDeposit) ∧
    alGet (add_product sampleMarket 1 500 "Gadget" 5 500).1.products
      "Gadget" = some ⟨5, 500⟩ :=
  ⟨(C6_add_product sampleMarket 1 500 "Widget" 5 2000 (by decide)).1
      (by decide),
   (C6_add_product sampleMarket 1 500 "Gadget" 5 499 (by decide)).2.1
      (by decide) (by decide),
   ((C6_add_product sampleMarket 1 500 "Gadget" 5 500 (by decide)).2.2
      (by decide) (by decide)).2⟩

/-- C7: an admin `update_product_info` on a listed product returns
`ProductInfoUpdated` echoing the name and the two optional arguments as
given; the product's fields become the supplied values where `some` and
stay unchanged where `none`; every other product, the purchase history,
the admin and the config are untouched. -/
theorem C7_update_product_info (m : Market) (src : ActorId) (name : String)
    (oq op : Option Nat) (pd : ProductData)
    (hadm : src = m.admin) (hlook : alGet m.products name = some pd) :
    (update_product_info m src name oq op).2 =
      .ok (.ProductInfoUpdated name oq op) ∧
    alGet (update_product_info m src name oq op).1.products name =
      some ⟨oq.getD pd.quantity, op.getD pd.price⟩ ∧
    (∀ n2, n2 ≠ name →
      alGet (update_product_info m src name oq op).1.products n2 =
        alGet m.products n2) ∧
    (update_product_info m src name oq op).1.purchases = m.purchases ∧
    (update_product_info m src name oq op).1.admin = m.admin ∧
    (update_product_info m src name oq op).1.config = m.config := by
  subst hadm
  have hs : (alGet m.products name).isSome := by rw [hlook]; rfl
  have hset : ∀ v : ProductData,
      alGet (alSet m.products name v) name = some v :=
    fun v => alGet_alSet_self m.products name v hs
  refine ⟨?_, ?_, fun n2 hn2 => ?_, ?_, ?_, ?_⟩
  · simp [update_product_info, hlook]
  · simp only [update_product_info, ne_eq, not_true_eq_false, if_false,
      hlook]
    cases oq <;> cases op <;> simp [hset]
  · simp only [update_product_info, ne_eq, not_true_eq_false, if_false,
      hlook]
    exact alGet_alSet_ne m.products name n2 _ hn2
  · simp [update_product_info, hlook]
  · simp [update_product_info, hlook]
  · simp [update_product_info, hlook]

/-- Witness for C7: a price-only update leaves quantity, other products and
the rest of the market unchanged. -/
theorem C7_update_product_info_witness :
    (update_product_info sampleMarket 1 "Widget" none (some 777)).2 =
      .ok (.ProductInfoUpdated "Widget" none (some 777)) ∧
    alGet (update_product_info sampleMarket 1 "Widget" none
      (some 777)).1.products "Widget" = some ⟨100, 777⟩ ∧
    alGet (update_product_info sampleMarket 1 "Widget" none
      (some 777)).1.products "Gadget" = alGet sampleMarket.products "Gadget" ∧
    (update_product_info sampleMarket 1 "Widget" none (some 777)).1.purchases =
      sampleMarket.purchases := by
  have h := C7_update_product_info sampleMarket 1 "Widget" none (some 777)
    ⟨100, 1000⟩ (by decide) (by decide)
  exact ⟨h.1, h.2.1, h.2.2.1 "Gadget" (by decide), h.2.2.2.1⟩

/-- C1 (amended): for a `buy` that passes the lookup, zero-quantity and
stock checks, and whose exact product `price * quantity` fits in `u128`
(the source multiplies in `u128`, so beyond that width the computed total
wraps): attaching `V < price * quantity` fails `InsufficientValue` with the
market unchanged; `V = price * quantity` succeeds issuing no transfer;
`V > price * quantity` succeeds issuing exactly one transfer of
`V - price * quantity` to the caller. -/
theorem C1_payment_exactness (m : Market) (src : ActorId) (V Q : Nat)
    (name addr : String) (pd : ProductData)
    (hlook : alGet m.products name = some pd)
    (hQ : Q ≠ 0) (hstock : Q ≤ pd.quantity) (hnoov : pd.price * Q < U) :
    (V < pd.price * Q →
      (buy m src V name Q addr).result = .error .InsufficientValue ∧
      (buy m src V name Q addr).market = m) ∧
    (V = pd.price * Q →
      (buy m src V name Q addr).result = .ok (.Bought src name Q) ∧
      (buy m src V name Q addr).transfers = []) ∧
    (pd.price * Q < V →
      (buy m src V name Q addr).result = .ok (.Bought src name Q) ∧
      (buy m src V name Q addr).transfers = [(src, V - pd.price * Q)]) := by
  have hmod : pd.price * Q % U = pd.price * Q := Nat.mod_eq_of_lt hnoov
  refine ⟨fun hlt => ?_, fun heq => ?_, fun hgt => ?_⟩
  · constructor <;>
      simp [buy, hlook, hQ, Nat.not_lt.mpr hstock, hmod, hlt]
  · subst heq
    constructor <;>
      simp [buy, hlook, hQ, Nat.not_lt.mpr hstock, hmod]
  · constructor <;>
      simp [buy, hlook, hQ, Nat.not_lt.mpr hstock, hmod,
        Nat.not_lt.mpr (Nat.le_of_lt hgt), hgt, send_value,
        Nat.sub_ne_zero_of_lt hgt]

/-- Witness for C1 at the sample market (price 1000, two units bought):
underpayment by 1 fails, exact payment refunds nothing, overpayment by 500
refunds exactly 500. -/
theorem C1_payment_exactness_witness :
    (buy sampleMarket 7 1999 "Widget" 2 "b").result =
      .error .InsufficientValue ∧
    (buy sampleMarket 7 1999 "Widget" 2 "b").market = sampleMarket ∧
    (buy sampleMarket 7 2000 "Widget" 2 "b").result =
      .ok (.Bought 7 "Widget" 2) ∧
    (buy sampleMarket 7 2000 "Widget" 2 "b").transfers = [] ∧
    (buy sampleMarket 7 2500 "Widget" 2 "b").result =
      .ok (.Bought 7 "Widget" 2) ∧
    (buy sampleMarket 7 2500 "Widget" 2 "b").transfers = [(7, 500)] := by
  have h1 := C1_payment_exactness sampleMarket 7 1999 2 "Widget" "b"
    ⟨100, 1000⟩ (by decide) (by decide) (by decide) (by decide)
  have h2 := C1_payment_exactness sampleMarket 7 2000 2 "Widget" "b"
    ⟨100, 1000⟩ (by decide) (by decide) (by decide) (by decide)
  have h3 := C1_payment_exactness sampleMarket 7 2500 2 "Widget" "b"
    ⟨100, 1000⟩ (by decide) (by decide) (by decide) (by decide)
  exact ⟨(h1.1 (by decide)).1, (h1.1 (by decide)).2,
    (h2.2.1 (by decide)).1, (h2.2.1 (by decide)).2,
    (h3.2.2 (by decide)).1, (h3.2.2 (by decide)).2⟩

/-- C1 counterexample: at price `2 ^ 127` and quantity 2 the source's
`u128` product wraps to 0, so a buyer attaching `V = 0`, which is far below
the exact `price * quantity`, succeeds instead of failing
`InsufficientValue` as the claim states. -/
theorem C1_payment_exactness_counterexample :
    (0 : Nat) < 2 ^ 127 * 2 ∧
    (buy overflowMarket 7 0 "Gem" 2 "c").result = .ok (.Bought 7 "Gem" 2) := by
  constructor
  · decide
  · decide

/-- C2: the `buy` checks run in the order name lookup, zero quantity,
stock, payment, each short-circuiting the rest — the error returned is the
one of the first failing check — and every failing `buy` leaves the whole
market (catalog, purchase history, admin, config) exactly as it was and
issues no transfer. -/
theorem C2_check_order_error_frame (m : Market) (src : ActorId) (V Q : Nat)
    (name addr : String) :
    (alGet m.products name = none →
      (buy m src V name Q addr).result = .error .ThereIsNoSuchName) ∧
    (∀ pd, alGet m.products name = some pd → Q = 0 →
      (buy m src V name Q addr).result = .error .ZeroQuantity) ∧
    (∀ pd, alGet m.products name = some pd → Q ≠ 0 → pd.quantity < Q →
      (buy m src V name Q addr).result = .error .QuantityExceeded) ∧
    (∀ pd, alGet m.products name = some pd → Q ≠ 0 → Q ≤ pd.quantity →
      V < pd.price * Q % U →
      (buy m src V name Q addr).result = .error .InsufficientValue) ∧
    (∀ e, (buy m src V name Q addr).result = .error e →
      (buy m src V name Q addr).market = m ∧
      (buy m src V name Q addr).transfers = []) := by
  refine ⟨fun h => ?_, fun pd h hQ => ?_, fun pd h hQ hst => ?_,
    fun pd h hQ hst hV => ?_, fun e he => ?_⟩
  · simp [buy, h]
  · simp [buy, h, hQ]
  · simp [buy, h, hQ, hst]
  · simp [buy, h, hQ, Nat.not_lt.mpr hst, hV]
  · cases hlook : alGet m.products name with
    | none => constructor <;> simp [buy, hlook]
    | some pd =>
        by_cases hQ : Q = 0
        · constructor <;> simp [buy, hlook, hQ]
        · by_cases hst : pd.quantity < Q
          · constructor <;> simp [buy, hlook, hQ, hst]
          · by_cases hV : V < pd.price * Q % U
            · constructor <;>
                simp [buy, hlook, hQ, hst, hV]
            · exfalso
              simp [buy, hlook, hQ, hst, hV] at he

/-- Witness for C2: each of the four error kinds at a concrete input, and
the state frame on the last of them. -/
theorem C2_check_order_error_frame_witness :
    (buy sampleMarket 7 5 "Nope" 1 "d").result =
      .error .ThereIsNoSuchName ∧
    (buy sampleMarket 7 5 "Widget" 0 "d").result = .error .ZeroQuantity ∧
    (buy sampleMarket 7 5 "Widget" 200 "d").result =
      .error .QuantityExceeded ∧
    (buy sampleMarket 7 999 "Widget" 1 "d").result =
      .error .InsufficientValue ∧
    (buy sampleMarket 7 999 "Widget" 1 "d").market = sampleMarket ∧
    (buy sampleMarket 7 999 "Widget" 1 "d").transfers = [] := by
  have h1 := (C2_check_order_error_frame sampleMarket 7 5 1 "Nope" "d").1
    (by decide)
  have h2 := (C2_check_order_error_frame sampleMarket 7 5 0 "Widget" "d").2.1
    ⟨100, 1000⟩ (by decide) rfl
  have h3 :=
    (C2_check_order_error_frame sampleMarket 7 5 200 "Widget" "d").2.2.1
      ⟨100, 1000⟩ (by decide) (by decide) (by decide)
  have h4 :=
    (C2_check_order_error_frame sampleMarket 7 999 1 "Widget" "d").2.2.2.1
      ⟨100, 1000⟩ (by decide) (by decide) (by decide) (by decide)
  have h5 :=
    (C2_check_order_error_frame sampleMarket 7 999 1 "Widget" "d").2.2.2.2
      .InsufficientValue (by decide)
  exact ⟨h1, h2, h3, h4, h5.1, h5.2⟩

/-- C3: the source computes `total = price * quantity` directly in `u128`,
which wraps silently: with price `2 ^ 127`, quantity 4 and attached value
1, the exact total `2 ^ 129` exceeds the `u128` range, the computed total
wraps to 0, and `buy` succeeds — returning `Bought` and refunding the whole
attached value — instead of failing or charging the exact total, contrary
to the claim that a wrapped total can never be charged. -/
theorem C3_overflow_wraps :
    2 ^ 127 * 4 % U = 0 ∧
    U ≤ 2 ^ 127 * 4 ∧
    (buy overflowMarket2 9 1 "Coin" 4 "e").result =
      .ok (.Bought 9 "Coin" 4) ∧
    (buy overflowMarket2 9 1 "Coin" 4 "e").transfers = [(9, 1)] := by
  refine ⟨by decide, by decide, by decide, by decide⟩

/-- C4: a successful `buy` of quantity `Q` on a product with prior stock
`S` passed the checks `0 < Q` and `Q ≤ S`, leaves the product's stock at
exactly `S - Q` (never negative, as `Q ≤ S`), and leaves its price
unchanged. -/
theorem C4_conservation (m : Market) (src : ActorId) (V Q : Nat)
    (name addr : String) (pd : ProductData)
    (hlook : alGet m.products name = some pd) (e : MarketEvent)
    (hok : (buy m src V name Q addr).result = .ok e) :
    0 < Q ∧ Q ≤ pd.quantity ∧
    alGet (buy m src V name Q addr).market.products name =
      some ⟨pd.quantity - Q, pd.price⟩ := by
  by_cases hQ : Q = 0
  · simp [buy, hlook, hQ] at hok
  · by_cases hst : pd.quantity < Q
    · simp [buy, hlook, hQ, hst] at hok
    · by_cases hV : V < pd.price * Q % U
      · simp [buy, hlook, hQ, hst, hV] at hok
      · refine ⟨Nat.pos_of_ne_zero hQ, Nat.le_of_not_lt hst, ?_⟩
        simp only [buy, hlook, hQ, if_false, gt_iff_lt, hst, hV]
        exact alGet_alSet_self m.products name _ (by rw [hlook]; rfl)

/-- Witness for C4: buying two units from stock 100 leaves stock 98 at the
same price. -/
theorem C4_conservation_witness :
    0 < 2 ∧ 2 ≤ (100 : Nat) ∧
    alGet (buy sampleMarket 7 2500 "Widget" 2 "f").market.products
      "Widget" = some ⟨98, 1000⟩ :=
  C4_conservation sampleMarket 7 2500 2 "Widget" "f" ⟨100, 1000⟩
    (by decide) (.Bought 7 "Widget" 2) (by decide)

/-- Every successful `buy` appends exactly one purchase record to the
caller's history and leaves every other actor's history binding
untouched. -/
theorem buy_ok_history (m : Market) (src : ActorId) (V Q : Nat)
    (name addr : String)
    (hok : isOkR (buy m src V name Q addr).result = true) :
    alGet (buy m src V name Q addr).market.purchases src =
      some (historyOf m src ++ [⟨name, Q, .PaidFor, addr⟩]) ∧
    (∀ a, a ≠ src →
      alGet (buy m src V name Q addr).market.purchases a =
        alGet m.purchases a) := by
  cases hlook : alGet m.products name with
  | none => simp [buy, hlook, isOkR] at hok
  | some pd =>
      by_cases hQ : Q = 0
      · simp [buy, hlook, hQ, isOkR] at hok
      · by_cases hst : pd.quantity < Q
        · simp [buy, hlook, hQ, hst, isOkR] at hok
        · by_cases hV : V < pd.price * Q % U
          · simp [buy, hlook, hQ, hst, hV, isOkR] at hok
          · constructor
            · simp only [buy, hlook, hQ, if_false, gt_iff_lt, hst, hV]
              rw [alGet_alEntryOrInsert_self]
              cases hget : alGet m.purchases src <;>
                simp [historyOf, hget]
            · intro a ha
              simp only [buy, hlook, hQ, if_false, gt_iff_lt, hst, hV]
              exact alGet_alEntryOrInsert_ne m.purchases src a _ _ ha

/-- C8: after a sequence of `buy` calls by one buyer that all succeed, the
buyer's history equals the prior history followed by one `PaidFor` record
per call, in call order — so starting from an empty history it holds
exactly `N` records after `N` calls — and the history binding of every
other actor is exactly as before. -/
theorem C8_history_append (m : Market) (buyer : ActorId) (cs : List BuyCall)
    (hsrc : ∀ c ∈ cs, c.src = buyer)
    (hok : allSucceed m cs = true) :
    historyOf (buyMany m cs) buyer =
      historyOf m buyer ++ cs.map purchaseRecord ∧
    (historyOf m buyer = [] →
      (historyOf (buyMany m cs) buyer).length = cs.length) ∧
    (∀ a, a ≠ buyer →
      alGet (buyMany m cs).purchases a = alGet m.purchases a) := by
  induction cs generalizing m with
  | nil => simp [buyMany]
  | cons c cs ih =>
      rw [allSucceed, Bool.and_eq_true] at hok
      have hc : c.src = buyer := hsrc c (by simp)
      have hstep := buy_ok_history m c.src c.value c.quantity c.name c.addr
        hok.1
      have hstep1 : historyOf (buyStep m c) buyer =
          historyOf m buyer ++ [purchaseRecord c] := by
        rw [historyOf, buyStep, hc] at *
        rw [hstep.1]
        rfl
      have ihr := ih (buyStep m c)
        (fun c2 hc2 => hsrc c2 (List.mem_cons_of_mem c hc2)) hok.2
      have hmain : historyOf (buyMany m (c :: cs)) buyer =
          historyOf m buyer ++ (c :: cs).map purchaseRecord := by
        rw [buyMany, ihr.1, hstep1, List.map_cons, List.append_assoc,
          List.singleton_append]
      refine ⟨hmain, fun hemp => ?_, fun a ha => ?_⟩
      · rw [hmain, hemp, List.nil_append, List.length_map]
      · rw [buyMany, ihr.2.2 a ha, buyStep]
        exact hstep.2 a (by rw [hc]; exact ha)

/-- Witness for C8: two successful purchases by buyer 7 on the sample
market leave a two-record history in call order, and actor 9's (empty)
binding is unchanged. -/
theorem C8_history_append_witness :
    historyOf (buyMany sampleMarket [c8Call1, c8Call2]) 7 =
      historyOf sampleMarket 7 ++ [c8Call1, c8Call2].map purchaseRecord ∧
    (historyOf (buyMany sampleMarket [c8Call1, c8Call2]) 7).length = 2 ∧
    alGet (buyMany sampleMarket [c8Call1, c8Call2]).purchases 9 =
      alGet sampleMarket.purchases 9 := by
  have h := C8_history_append sampleMarket 7 [c8Call1, c8Call2] (by decide)
    (by decide)
  exact ⟨h.1, h.2.1 (by decide), h.2.2 9 (by decide)⟩

end MarketSpec
